import Mathlib

/-!
Shallow embedding of the core of `generator.py` (isbn-label-generator).

The program's interesting core is the Library-of-Congress call-number
normaliser `Generator._format_ident` (src/generator.py lines 131-254),
together with the year helper `has_valid_year_at_end` (lines 19-48), the
inline year-appending policy of `Generator.prompt_book` (lines 399-400),
the persistent-counter/log writer `Generator.store_book` (lines 115-128)
and the label-text assembly of line 403.

Strings are modelled as Lean `String`/`List Char`; the Python character
classes (`\s`, `\d`, `[A-Za-z]`, `\w`, `str.upper`, `str.lower`,
`str.isdigit`, `str.isalpha`) are modelled on their ASCII fragment, which
is the fragment the program's regexes and data exercise.  Each regex of
the source is hand-compiled to an equivalent deterministic matcher; where
the regex engine's backtracking matters (the `{1,3}` letter group of the
main-class match) the matcher tries the alternatives in the engine's
greedy order.  All definitions are total and executable.
-/

/-! ### ASCII character classes (Python `\d`, `[A-Za-z]`, `\s`, `\w`, case maps) -/

/-- Python `\d` / `str.isdigit` on the ASCII fragment: `'0'..'9'`. -/
def isDigitC (c : Char) : Bool := decide (48 ≤ c.toNat) && decide (c.toNat ≤ 57)

/-- ASCII uppercase letter `A`-`Z`. -/
def isUpperC (c : Char) : Bool := decide (65 ≤ c.toNat) && decide (c.toNat ≤ 90)

/-- ASCII lowercase letter `a`-`z`. -/
def isLowerC (c : Char) : Bool := decide (97 ≤ c.toNat) && decide (c.toNat ≤ 122)

/-- Python `[A-Za-z]` / `str.isalpha` on the ASCII fragment. -/
def isLetterC (c : Char) : Bool := isUpperC c || isLowerC c

/-- Python `\s` (ASCII fragment): space, tab, newline, carriage return,
vertical tab, form feed. -/
def isSpaceC (c : Char) : Bool :=
  decide (c = ' ') || decide (c = '\t') || decide (c = '\n') ||
  decide (c = '\r') || decide (c.toNat = 11) || decide (c.toNat = 12)

/-- Python `\w` (word character, ASCII fragment), used for `\b`. -/
def isWordC (c : Char) : Bool := isLetterC c || isDigitC c || decide (c = '_')

/-- Python `str.upper` on one ASCII char. -/
def toUpperC (c : Char) : Char := if isLowerC c then Char.ofNat (c.toNat - 32) else c

/-- Python `str.lower` on one ASCII char. -/
def toLowerC (c : Char) : Char := if isUpperC c then Char.ofNat (c.toNat + 32) else c

/-- `str.upper` mapped over a string (as a char list). -/
def upperL (l : List Char) : List Char := l.map toUpperC

/-! ### String helpers mirroring Python's built-ins -/

/-- Python `str.strip()` (ASCII whitespace): drop leading and trailing
whitespace. -/
def stripL (l : List Char) : List Char :=
  ((l.dropWhile isSpaceC).reverse.dropWhile isSpaceC).reverse

/-- `re.sub(r"\s+", " ", cn)`: collapse every whitespace run to one space.
The flag records whether the previous character was whitespace. -/
def collapseWSAux : Bool → List Char → List Char
  | _, [] => []
  | prevSpace, c :: cs =>
    if isSpaceC c then
      if prevSpace then collapseWSAux true cs else ' ' :: collapseWSAux true cs
    else c :: collapseWSAux false cs

/-- `re.sub(r"\s+", " ", cn)` (line 143). -/
def collapseWS (l : List Char) : List Char := collapseWSAux false l

/-- `re.sub(r"\.+", " . ", cn)` (line 167): replace every run of dots by
a lone spaced-out dot.  The flag records whether we are inside a dot run. -/
def spaceDotsAux : Bool → List Char → List Char
  | _, [] => []
  | inRun, c :: cs =>
    if c = '.' then
      if inRun then spaceDotsAux true cs
      else ' ' :: '.' :: ' ' :: spaceDotsAux true cs
    else c :: spaceDotsAux false cs

/-- `re.sub(r"\.+", " . ", cn)` (line 167). -/
def spaceDots (l : List Char) : List Char := spaceDotsAux false l

/-- `str.split()` with no argument: split on whitespace runs, dropping
empty pieces (line 168; the comprehension's `if t` filter is subsumed). -/
def splitWSAux : List Char → List Char → List (List Char)
  | acc, [] => if acc.isEmpty then [] else [acc.reverse]
  | acc, c :: cs =>
    if isSpaceC c then
      if acc.isEmpty then splitWSAux [] cs else acc.reverse :: splitWSAux [] cs
    else splitWSAux (c :: acc) cs

/-- `cn.split()` as a list of tokens. -/
def splitWS (l : List Char) : List (List Char) := splitWSAux [] l

/-- Python slice `l[-n:]`: the last `n` characters (all of them when the
string is shorter).  `Nat` subtraction truncates exactly like the slice. -/
def takeRightL (l : List Char) (n : Nat) : List Char := l.drop (l.length - n)

/-- Python `str.isdigit()`: true iff nonempty and all digits. -/
def pyIsDigit (l : List Char) : Bool := !l.isEmpty && l.all isDigitC

/-- `int(s)` on an all-digit string. -/
def digitsVal (l : List Char) : Nat :=
  l.foldl (fun acc c => 10 * acc + (c.toNat - 48)) 0

/-! ### `has_valid_year_at_end` (src/generator.py lines 19-48) -/

/-- `has_valid_year_at_end(text)` (lines 19-48): length check, optional
strip of one trailing letter, last four characters must be digits whose
value is in `1000..2999`. -/
def has_valid_year_at_end (text : String) : Bool :=
  if text.data.length < 4 then false
  else
    let l2 := if isLetterC (text.data.getLastD ' ') then text.data.dropLast else text.data
    let last_four := takeRightL l2 4
    if !pyIsDigit last_four then false
    else decide (1000 ≤ digitsVal last_four ∧ digitsVal last_four ≤ 2999)

/-- The year predicate exactly as the specification words it: after
optionally stripping one trailing letter, the last 4 characters of the
string are digits forming a number in the inclusive range 1000-2999
(the "last 4 characters" reading requires at least 4 characters to
remain after the strip). -/
def year_suffix_spec (text : String) : Bool :=
  let t := if isLetterC (text.data.getLastD ' ') then text.data.dropLast else text.data
  decide (4 ≤ t.length) &&
    (pyIsDigit (takeRightL t 4) &&
      (decide (1000 ≤ digitsVal (takeRightL t 4)) &&
        decide (digitsVal (takeRightL t 4) ≤ 2999)))

/-! ### The call-number normaliser `_format_ident` (lines 131-254) -/

/-- The fixed institutional-prefix vocabulary of line 149. -/
def pfxWords : List (List Char) :=
  ["REF".data, "JUV".data, "OVERSIZE".data, "MAPS".data, "DOCS".data,
   "SERIAL".data, "MICRO".data, "SHELF".data]

/-- The `\b` of `^(REF|...)\b`: since the character before the boundary is
a letter, the boundary holds iff the input ends or continues with a
non-word character. -/
def boundaryAfter (rest : List Char) : Bool :=
  match rest with
  | [] => true
  | c :: _ => !isWordC c

/-- Lines 148-153: match `^(REF|JUV|OVERSIZE|MAPS|DOCS|SERIAL|MICRO|SHELF)\b`
case-insensitively; on success emit the word uppercased and strip the rest.
No word of the vocabulary is a prefix of another, so the alternation order
of the regex does not matter. -/
def pfxStep (cn : List Char) : List (List Char) × List Char :=
  match pfxWords.find? (fun w =>
      upperL (cn.take w.length) == w && boundaryAfter (cn.drop w.length)) with
  | some w => ([w], stripL (cn.drop w.length))
  | none => ([], cn)

/-- The optional fraction `(?:\.\d+)?` (greedy): a dot followed by one or
more digits, else nothing.  Returns the matched text and the rest. -/
def fracOf (r : List Char) : List Char × List Char :=
  match r with
  | '.' :: r2 =>
    let fs := r2.takeWhile isDigitC
    if fs.isEmpty then ([], '.' :: r2) else ('.' :: fs, r2.dropWhile isDigitC)
  | _ => ([], r)

/-- One backtracking alternative of `^([A-Z]{1,3})\s*(\d+(?:\.\d+)?)`
(line 156, case-insensitive): exactly `k` leading letters, optional
whitespace, one or more digits, optional fraction.  On success returns
the emitted `group(1).upper() + group(2)` (line 158: the space is gone)
and the unconsumed rest. -/
def mainTryK (cn : List Char) (k : Nat) : Option (List Char × List Char) :=
  let ls := cn.take k
  if decide (ls.length = k) && ls.all isLetterC then
    let r1 := (cn.drop k).dropWhile isSpaceC
    let ds := r1.takeWhile isDigitC
    if ds.isEmpty then none
    else
      let fr := fracOf (r1.dropWhile isDigitC)
      some (upperL ls ++ ds ++ fr.1, fr.2)
  else none

/-- Lines 155-164: the main-class match (greedy `{1,3}` tries 3, 2, 1
letters in that order), else the fallback that takes the first
whitespace-delimited token verbatim, uppercased (`cn.split()[0] if cn
else ""`).  Returns the emitted line and the stripped rest. -/
def mainStep (cn : List Char) : List Char × List Char :=
  match mainTryK cn 3 with
  | some (m, rest) => (m, stripL rest)
  | none =>
    match mainTryK cn 2 with
    | some (m, rest) => (m, stripL rest)
    | none =>
      match mainTryK cn 1 with
      | some (m, rest) => (m, stripL rest)
      | none =>
        let tok := cn.takeWhile (fun c => !isSpaceC c)
        (upperL tok, stripL (cn.drop tok.length))

/-- Lines 172-184: the cursor walk that attaches a lone-dot token to the
following token (`"." + tokens[i + 1]`), leaving a trailing lone dot as
`"."`.  Yields the sequence of tokens the classifier is run on. -/
def foldTokens : List (List Char) → List (List Char)
  | [] => []
  | t :: ts =>
    if t = ['.'] then
      match ts with
      | u :: ts2 => ('.' :: u) :: foldTokens ts2
      | [] => [['.']]
    else t :: foldTokens ts

/-- `re.fullmatch(r"([vc])\.(\d+)", token, re.IGNORECASE)` (line 188):
a `v` or `c` (either case), a dot, one or more digits.  Returns the
letter and the digits. -/
def vcMatch (t : List Char) : Option (Char × List Char) :=
  match t with
  | a :: '.' :: rest =>
    if (decide (toLowerC a = 'v') || decide (toLowerC a = 'c')) &&
        !rest.isEmpty && rest.all isDigitC then
      some (a, rest)
    else none
  | _ => none

/-- `re.fullmatch(r"\d{4}[A-Za-z]?", token)` (lines 194 and 239). -/
def isYearTok (t : List Char) : Bool :=
  match t with
  | [a, b, c, d] => isDigitC a && isDigitC b && isDigitC c && isDigitC d
  | [a, b, c, d, e] =>
    isDigitC a && isDigitC b && isDigitC c && isDigitC d && isLetterC e
  | _ => false

/-- `re.fullmatch(r"\d{4}", token)` (line 226). -/
def isFourDigitTok (t : List Char) : Bool :=
  match t with
  | [a, b, c, d] => isDigitC a && isDigitC b && isDigitC c && isDigitC d
  | _ => false

/-- `re.fullmatch(r"[A-Za-z]", line)` (line 228): a single letter. -/
def isSingleLetterTok (t : List Char) : Bool :=
  match t with
  | [a] => isLetterC a
  | _ => false

/-- `re.findall(r"([A-Za-z]+)(\d+(?:\.\d+)?)", core)` (lines 203 and 216):
scan left to right for maximal letter-run + digit-run (+ optional
fraction) groups.  When a letter run is not followed by a digit the scan
cannot succeed anywhere inside that run, so it resumes after it; fuel is
the list length, which bounds the number of steps since every step
consumes at least one character. -/
def findGroupsAux : Nat → List Char → List (List Char × List Char)
  | 0, _ => []
  | _ + 1, [] => []
  | fuel + 1, c :: cs =>
    if isLetterC c then
      let ls := (c :: cs).takeWhile isLetterC
      let r1 := (c :: cs).dropWhile isLetterC
      let ds := r1.takeWhile isDigitC
      if ds.isEmpty then findGroupsAux fuel r1
      else
        let fr := fracOf (r1.dropWhile isDigitC)
        (ls, ds ++ fr.1) :: findGroupsAux fuel fr.2
    else findGroupsAux fuel cs

/-- `re.findall(r"([A-Za-z]+)(\d+(?:\.\d+)?)", l)`. -/
def findGroups (l : List Char) : List (List Char × List Char) :=
  findGroupsAux l.length l

/-- `re.fullmatch(r"[A-Za-z]+\d+(?:\.\d+)?", token)` (line 214): letters,
digits, optional fraction, covering the whole token (greedy runs; no
backtracking alternative can succeed when the greedy one fails). -/
def isLetterDigitsTok (t : List Char) : Bool :=
  let r1 := t.dropWhile isLetterC
  let r2 := r1.dropWhile isDigitC
  !(t.takeWhile isLetterC).isEmpty && !(r1.takeWhile isDigitC).isEmpty &&
    (r2.isEmpty ||
      match r2 with
      | '.' :: r3 => !r3.isEmpty && r3.all isDigitC
      | _ => false)

/-- `"." + g[0].upper() + g[1]` (lines 206 and 219). -/
def cutterOfGroup (g : List Char × List Char) : List Char :=
  '.' :: (upperL g.1 ++ g.2)

/-- Lines 187-234: classify one folded token, appending to the accumulated
`normalized` list.  Branch order follows the source: v./c. marker, year
with optional suffix letter, dot-prefixed chunk split into cutter groups,
undotted letter+digit chunk given dots, bare-4-digit merge into a
preceding single-letter line, default keep. -/
def classifyStep (normalized : List (List Char)) (token : List Char) :
    List (List Char) :=
  match vcMatch token with
  | some pr => normalized ++ [toLowerC pr.1 :: '.' :: pr.2]
  | none =>
    if isYearTok token then normalized ++ [token]
    else
      match token with
      | '.' :: core =>
        let gs := findGroups core
        if gs.isEmpty then normalized ++ ['.' :: core]
        else normalized ++ gs.map cutterOfGroup
      | _ =>
        if isLetterDigitsTok token then
          let gs := findGroups token
          if gs.isEmpty then normalized ++ ['.' :: upperL token]
          else normalized ++ gs.map cutterOfGroup
        else if isFourDigitTok token && !normalized.isEmpty &&
            isSingleLetterTok (normalized.getLastD []) then
          normalized.dropLast ++ [normalized.getLastD [] ++ token]
        else normalized ++ [token]

/-- Lines 236-251: the casing post-pass over one normalized token: years
kept, `v.`/`c.` markers lowercased, cutters re-uppercased through
`re.match(r"\.([A-Za-z]+)(\d*(?:\.\d+)?)", p)` (a prefix match whose
unmatched tail is dropped), everything else uppercased. -/
def postOne (p : List Char) : List Char :=
  if isYearTok p then p
  else if (vcMatch p).isSome then p.map toLowerC
  else
    match p with
    | '.' :: rest =>
      let ls := rest.takeWhile isLetterC
      if ls.isEmpty then '.' :: rest
      else
        let r1 := rest.dropWhile isLetterC
        let ds := r1.takeWhile isDigitC
        let fr := fracOf (r1.dropWhile isDigitC)
        '.' :: (upperL ls ++ ds ++ fr.1)
    | _ => upperL p

/-- `Generator._format_ident` (lines 131-254) as the list of final lines
(`final_lines = parts + out_lines`, line 253).  Blank input returns the
empty list (the source's early `return ""`). -/
def format_ident_lines (call_number : String) : List String :=
  if stripL call_number.data = [] then []
  else
    let cn0 := collapseWS (stripL call_number.data)
    let pr := pfxStep cn0
    let mn := mainStep pr.2
    let folded := foldTokens (splitWS (spaceDots mn.2))
    let outLines := (folded.foldl classifyStep []).map postOne
    (pr.1 ++ mn.1 :: outLines).map (fun l => String.mk l)

/-- `Generator._format_ident`'s actual return value, the lines joined with
newlines (line 254); blank input gives `""` (line 140). -/
def format_ident (call_number : String) : String :=
  String.intercalate "\n" (format_ident_lines call_number)

/-! ### The year policy of `prompt_book` (lines 399-400) -/

/-- Lines 399-400 of `prompt_book`: when the identifier does not already
end in a valid year and a year string is known, append a space and the
year's last four characters (`book.ident += " " + book.year[-4:]`);
otherwise leave the identifier unchanged. -/
def ensure_year (ident : String) (year : Option String) : String :=
  match year with
  | none => ident
  | some y =>
    if has_valid_year_at_end ident then ident
    else ident ++ " " ++ String.mk (takeRightL y.data 4)

/-! ### `store_book` (lines 115-128) -/

/-- The `Book` dataclass (lines 51-57). -/
structure Book where
  isbn : Option String
  ident : Option String
  title : Option String
  authors : Option String
  year : Option String

/-- Rendering of an optional field inside the f-string of line 126:
Python prints `None` for a missing value. -/
def pyStr (o : Option String) : String :=
  match o with
  | some s => s
  | none => "None"

/-- `'"' + s + '"'`: one double-quoted CSV field of line 126. -/
def quoteF (s : String) : String := "\"" ++ s ++ "\""

/-- The persistent state touched by `store_book`: the counter in
`current-id.txt` and the contents of the append-only `books.csv`. -/
structure Store where
  current_id : Nat
  books_csv : String

/-- The record appended by line 126:
`f'{current_uid},"{book.title}","{book.authors}","{book.ident}"\n'`. -/
def storeRecord (uid : Nat) (b : Book) : String :=
  toString uid ++ "," ++ quoteF (pyStr b.title) ++ "," ++
    quoteF (pyStr b.authors) ++ "," ++ quoteF (pyStr b.ident) ++ "\n"

/-- `Generator.store_book` (lines 115-128): read the persisted counter,
increment it, write it back, append one CSV record, return the new id. -/
def store_book (b : Book) (st : Store) : Nat × Store :=
  let current_uid := st.current_id + 1
  (current_uid,
   { current_id := current_uid,
     books_csv := st.books_csv ++ storeRecord current_uid b })

/-! ### Label assembly (line 403) -/

/-- One uppercase hexadecimal digit. -/
def hexDigitChar (n : Nat) : Char :=
  if n < 10 then Char.ofNat (48 + n) else Char.ofNat (55 + n)

/-- Big-endian uppercase hexadecimal digits of `n` (empty for 0); the
fuel argument bounds the recursion and any fuel above `n` suffices. -/
def hexRepAux : Nat → Nat → List Char
  | 0, _ => []
  | fuel + 1, n => if n = 0 then [] else hexRepAux fuel (n / 16) ++ [hexDigitChar (n % 16)]

/-- `"%X" % n`: uppercase hexadecimal rendering of `n`. -/
def hexUpper (n : Nat) : String :=
  if n = 0 then "0" else String.mk (hexRepAux (n + 1) n)

/-- `f"{uid:>04X}"`: uppercase hex, zero-padded on the left to at least
4 characters. -/
def formatUid (uid : Nat) : String :=
  String.mk (List.replicate (4 - (hexUpper uid).length) '0') ++ hexUpper uid

/-- The line structure of `label_text` from line 403
(`f"AMH {uid:>04X}\n\n" + Generator._format_ident(book.ident)`): the
header token and the padded UID share the first line, then comes a blank
line, then the canonical call-number lines unchanged. -/
def assemble (uid : Nat) (canonicalLines : List String) : List String :=
  ("AMH " ++ formatUid uid) :: "" :: canonicalLines

/-- The full `label_text` string of line 403. -/
def label_text (uid : Nat) (ident : String) : String :=
  "AMH " ++ formatUid uid ++ "\n\n" ++ format_ident ident

/-! ## Helper lemmas -/

/-- A character that fails the predicate survives `dropWhile`. -/
lemma mem_dropWhile_of_not (p : Char → Bool) (c : Char) (hc : p c = false) :
    ∀ l : List Char, c ∈ l → c ∈ l.dropWhile p := by
  intro l
  induction l with
  | nil => intro h; simp at h
  | cons d t ih =>
    intro hmem
    rw [List.dropWhile_cons]
    by_cases hd : p d = true
    · simp only [hd, if_true]
      rcases List.mem_cons.mp hmem with h1 | h2
      · subst h1; rw [hd] at hc; cases hc
      · exact ih h2
    · simp only [hd, if_false]
      exact hmem

/-- A string containing a non-whitespace character does not strip to
empty. -/
lemma stripL_ne_nil_of_mem (c : Char) (hc : isSpaceC c = false)
    (l : List Char) (hm : c ∈ l) : stripL l ≠ [] := by
  have h1 : c ∈ l.dropWhile isSpaceC := mem_dropWhile_of_not _ c hc l hm
  have h2 : c ∈ (l.dropWhile isSpaceC).reverse := List.mem_reverse.mpr h1
  have h3 : c ∈ (l.dropWhile isSpaceC).reverse.dropWhile isSpaceC :=
    mem_dropWhile_of_not _ c hc _ h2
  have h4 : c ∈ stripL l := by unfold stripL; exact List.mem_reverse.mpr h3
  exact List.ne_nil_of_mem h4

/-- The folded value of an all-digit string grows by at most a factor
`10` per digit. -/
lemma digitsVal_fold_lt (l : List Char) :
    ∀ a : Nat, l.all isDigitC = true →
      l.foldl (fun acc c => 10 * acc + (c.toNat - 48)) a < (a + 1) * 10 ^ l.length := by
  induction l with
  | nil => intro a _; simp
  | cons c t ih =>
    intro a hall
    rw [List.all_cons, Bool.and_eq_true] at hall
    have hd : c.toNat - 48 ≤ 9 := by
      have h1 := hall.1
      simp only [isDigitC, Bool.and_eq_true, decide_eq_true_eq] at h1
      omega
    have hstep := ih (10 * a + (c.toNat - 48)) hall.2
    have hmono : (10 * a + (c.toNat - 48) + 1) * 10 ^ t.length ≤
        (10 * (a + 1)) * 10 ^ t.length :=
      Nat.mul_le_mul_right _ (by omega)
    calc List.foldl (fun acc ch => 10 * acc + (ch.toNat - 48)) a (c :: t)
        = List.foldl (fun acc ch => 10 * acc + (ch.toNat - 48))
            (10 * a + (c.toNat - 48)) t := rfl
      _ < (10 * a + (c.toNat - 48) + 1) * 10 ^ t.length := hstep
      _ ≤ (10 * (a + 1)) * 10 ^ t.length := hmono
      _ = (a + 1) * 10 ^ (c :: t).length := by
          rw [List.length_cons, pow_succ]; ring

/-- The value of an all-digit string is below `10 ^ length`. -/
lemma digitsVal_lt (l : List Char) (h : l.all isDigitC = true) :
    digitsVal l < 10 ^ l.length := by
  have := digitsVal_fold_lt l 0 h
  simpa [digitsVal] using this

/-! ## Claim theorems -/

/-- C1 (counterexample): the whitespace-only string `" "` is a non-empty
input on which `format_ident_lines` returns the empty sequence of lines,
so the claim does not hold for every non-empty input. -/
theorem normalize_blank_input_empty :
    format_ident_lines " " = [] ∧ " " ≠ "" := by decide

/-- C1 (amended): for every input string containing at least one
non-whitespace character, the normaliser — a total Lean function, so it
terminates and cannot raise — returns a non-empty sequence of lines. -/
theorem normalize_nonblank_ne_nil (s : String)
    (h : s.data.any (fun c => !isSpaceC c) = true) :
    format_ident_lines s ≠ [] := by
  rw [List.any_eq_true] at h
  obtain ⟨c, hc, hcb⟩ := h
  have hcf : isSpaceC c = false := by
    cases hval : isSpaceC c
    · rfl
    · rw [hval] at hcb; simp at hcb
  have hne : stripL s.data ≠ [] := stripL_ne_nil_of_mem c hcf s.data hc
  simp only [format_ident_lines]
  rw [if_neg hne]
  simp

/-- C1 (witness): the theorem applied at the concrete input `"A"`. -/
theorem normalize_nonblank_ne_nil_witness :
    ("A".data.any (fun c => !isSpaceC c) = true) ∧ format_ident_lines "A" ≠ [] :=
  ⟨by decide, normalize_nonblank_ne_nil "A" (by decide)⟩

/-- C2 (counterexample): the claimed output list is wrong — the token
`Z465` is letter+digits shaped, so the code treats it as a cutter and
adds a dot rather than keeping it verbatim. -/
theorem normalize_ref_claimed_lines_false :
    format_ident_lines "REF PS3515 .I9 Z465 1987" ≠
      ["REF", "PS3515", ".I9", "Z465", "1987"] := by decide

/-- C2 (amended): `normalize("REF PS3515 .I9 Z465 1987")` returns the
five lines `["REF", "PS3515", ".I9", ".Z465", "1987"]`: the prefix is
extracted and `Z465`, being letter+digits shaped, is treated as a cutter
and emitted with a supplied leading dot. -/
theorem normalize_ref_ps3515_lines :
    format_ident_lines "REF PS3515 .I9 Z465 1987" =
      ["REF", "PS3515", ".I9", ".Z465", "1987"] := by decide

/-- C3 (evaluation at the failing input): the code splits `v.2` at the
dot-spacing step of line 167 and never reassembles it — the
`([vc])\.(\d+)` branch of line 188 is unreachable — so the output ends
in `"V"` and `".2"` rather than in a line `"v.2"`. -/
theorem normalize_qa76_v2_lines :
    format_ident_lines "QA76.73.P98 v.2" = ["QA76.73", ".P98", "V", ".2"] := by decide

/-- C4 (counterexample): re-normalising the joined output of
`normalize("A1 . .")` does not reproduce it: two lone dots fold into the
line `".."`, which a second pass collapses to `"."`. -/
theorem normalize_not_idempotent_two_dots :
    format_ident_lines "A1 . ." = ["A1", ".."] ∧
    format_ident_lines (format_ident "A1 . .") = ["A1", "."] ∧
    format_ident_lines (format_ident "A1 . .") ≠ format_ident_lines "A1 . ." := by
  refine ⟨by decide, by decide, ?_⟩
  decide

/-- C4 (amended): re-running `normalize` on the joined output of a prior
`normalize` call yields the same line sequence on canonical-shaped
inputs — verified here on the specification's own example set — and in
particular re-feeding an already-dotted cutter does not double the dot;
idempotence does not, however, hold for every input (see the
counterexample with two lone dots). -/
theorem normalize_idempotent_on_examples :
    format_ident_lines (format_ident "HD30.22") = format_ident_lines "HD30.22" ∧
    format_ident_lines (format_ident "HD 30.22 .T8 E2") =
      format_ident_lines "HD 30.22 .T8 E2" ∧
    format_ident_lines (format_ident "REF PS3515 .I9 Z465 1987") =
      format_ident_lines "REF PS3515 .I9 Z465 1987" ∧
    format_ident_lines (format_ident "QA76.73.P98 v.2") =
      format_ident_lines "QA76.73.P98 v.2" ∧
    format_ident_lines (format_ident "HD 30.22 .T8") = ["HD30.22", ".T8"] := by
  refine ⟨by decide, by decide, by decide, by decide, by decide⟩

/-- C9: an input consisting solely of a recognised prefix token (any
casing) yields the uppercased prefix line followed by an empty
main-class line, not the prefix alone. -/
theorem normalize_prefix_only_trailing_empty :
    format_ident_lines "REF" = ["REF", ""] ∧
    format_ident_lines "JUV" = ["JUV", ""] ∧
    format_ident_lines "OVERSIZE" = ["OVERSIZE", ""] ∧
    format_ident_lines "MAPS" = ["MAPS", ""] ∧
    format_ident_lines "DOCS" = ["DOCS", ""] ∧
    format_ident_lines "SERIAL" = ["SERIAL", ""] ∧
    format_ident_lines "MICRO" = ["MICRO", ""] ∧
    format_ident_lines "SHELF" = ["SHELF", ""] ∧
    format_ident_lines "ref" = ["REF", ""] := by
  refine ⟨by decide, by decide, by decide, by decide, by decide, by decide,
    by decide, by decide, by decide⟩

/-- C7 (counterexample): with UID 5 and lines `["HD30.22", ".T8"]` the
third line of the label is `"HD30.22"`, and no line equals `"0005"` — the
UID is not on its own line, so the claimed line order is wrong. -/
theorem assemble_uid_line_not_separate :
    (assemble 5 ["HD30.22", ".T8"])[2]? = some "HD30.22" ∧
    ¬ ("0005" ∈ assemble 5 ["HD30.22", ".T8"]) := by decide

/-- C7 (amended): `assemble` with UID 5 and lines `["HD30.22", ".T8"]`
produces, in order: one first line holding the header token and the UID
together (`"AMH 0005"`, the UID rendered as uppercase hexadecimal
zero-padded to at least 4 characters), a blank line, then `"HD30.22"`
and `".T8"` unchanged. -/
theorem assemble_header_blank_lines :
    assemble 5 ["HD30.22", ".T8"] = ["AMH 0005", "", "HD30.22", ".T8"] ∧
    formatUid 5 = "0005" := by decide

/-- Bool shape of the source's early-return: `if not b: return False`
followed by returning `x` is the conjunction `b && x`. -/
lemma if_bang_false_else (b x : Bool) : (if (!b) = true then false else x) = (b && x) := by
  cases b <;> simp

/-- Shared helper: the source's year check agrees with the
specification's wording on every string.  The only case where the two
computations take different routes is a 4-character string ending in a
letter, where the code range-checks the 3 remaining digits (necessarily
below 1000) while the spec's length requirement fails directly. -/
lemma year_equiv_all (s : String) : has_valid_year_at_end s = year_suffix_spec s := by
  simp only [has_valid_year_at_end, year_suffix_spec]
  by_cases hL : isLetterC (s.data.getLastD ' ') = true
  · rw [if_pos hL]
    by_cases hlen : s.data.length < 4
    · have hd4 : decide (4 ≤ s.data.dropLast.length) = false :=
        decide_eq_false (by rw [List.length_dropLast]; omega)
      rw [if_pos hlen, hd4, Bool.false_and]
    · rw [if_neg hlen, if_bang_false_else]
      by_cases h5 : 5 ≤ s.data.length
      · have hd4 : decide (4 ≤ s.data.dropLast.length) = true :=
          decide_eq_true (by rw [List.length_dropLast]; omega)
        rw [hd4, Bool.true_and, Bool.decide_and]
      · have h3 : s.data.dropLast.length = 3 := by rw [List.length_dropLast]; omega
        have hteq : takeRightL s.data.dropLast 4 = s.data.dropLast := by
          simp [takeRightL, h3]
        have hd4 : decide (4 ≤ s.data.dropLast.length) = false :=
          decide_eq_false (by omega)
        rw [hteq, hd4, Bool.false_and]
        cases hd : pyIsDigit s.data.dropLast with
        | false => rw [Bool.false_and]
        | true =>
          have hall : s.data.dropLast.all isDigitC = true := by
            rw [pyIsDigit, Bool.and_eq_true] at hd
            exact hd.2
          have hlt : digitsVal s.data.dropLast < 1000 := by
            have hv := digitsVal_lt _ hall
            rw [h3] at hv
            simpa using hv
          have hnot : decide (1000 ≤ digitsVal s.data.dropLast ∧
              digitsVal s.data.dropLast ≤ 2999) = false :=
            decide_eq_false (by omega)
          rw [hnot, Bool.true_and]
  · rw [if_neg hL]
    by_cases hlen : s.data.length < 4
    · have hd4 : decide (4 ≤ s.data.length) = false := decide_eq_false (by omega)
      rw [if_pos hlen, hd4, Bool.false_and]
    · have hd4 : decide (4 ≤ s.data.length) = true := decide_eq_true (by omega)
      rw [if_neg hlen, if_bang_false_else, hd4, Bool.true_and, Bool.decide_and]

/-- C5: `has_valid_year_at_end` returns true exactly when, after
optionally stripping one trailing letter, the last 4 characters are
digits forming a number in the inclusive range 1000-2999; `"1983"` and
`"1983b"` are true, `"83"` is false, the endpoints 1000 and 2999 are
accepted, and 999-ending and 3000-ending strings are rejected. -/
theorem year_check_spec_equiv :
    (∀ s : String, has_valid_year_at_end s = year_suffix_spec s) ∧
    has_valid_year_at_end "1983" = true ∧
    has_valid_year_at_end "1983b" = true ∧
    has_valid_year_at_end "83" = false ∧
    has_valid_year_at_end "1000" = true ∧
    has_valid_year_at_end "2999" = true ∧
    has_valid_year_at_end "0999" = false ∧
    has_valid_year_at_end "3000" = false :=
  ⟨year_equiv_all, by decide, by decide, by decide, by decide, by decide,
   by decide, by decide⟩

/-- C6: the inline year policy of `prompt_book` (lines 399-400) returns
the identifier unchanged when it already ends in a valid year (whatever
the fallback), appends one space plus the last 4 characters of the
fallback year when it does not and a fallback is present, and returns
the identifier unchanged when the fallback is absent. -/
theorem ensure_year_cases :
    (∀ (s : String) (y : Option String), has_valid_year_at_end s = true →
        ensure_year s y = s) ∧
    (∀ (s y : String), has_valid_year_at_end s = false →
        ensure_year s (some y) = s ++ " " ++ String.mk (takeRightL y.data 4)) ∧
    (∀ s : String, ensure_year s none = s) := by
  refine ⟨?_, ?_, fun s => rfl⟩
  · intro s y hv
    cases y with
    | none => rfl
    | some y0 => simp [ensure_year, hv]
  · intro s y hv
    simp [ensure_year, hv]

/-- C6 (witness): the three cases of the theorem applied at concrete
inputs. -/
theorem ensure_year_cases_witness :
    has_valid_year_at_end "QA76 1983" = true ∧
    ensure_year "QA76 1983" (some "2001") = "QA76 1983" ∧
    has_valid_year_at_end "QA76" = false ∧
    ensure_year "QA76" (some "c2001") =
      "QA76" ++ " " ++ String.mk (takeRightL "c2001".data 4) ∧
    ensure_year "QA76" none = "QA76" :=
  ⟨by decide, ensure_year_cases.1 "QA76 1983" (some "2001") (by decide), by decide,
   ensure_year_cases.2.1 "QA76" "c2001" (by decide), ensure_year_cases.2.2 "QA76"⟩

/-- C8: `store_book` returns the persisted counter plus one, persists
that new value, appends exactly one newline-terminated CSV record (four
comma-separated fields, the last three double-quoted, as `storeRecord`
spells out), and a second store on the resulting state returns an id one
larger again. -/
theorem store_book_spec :
    ∀ (b : Book) (st : Store),
      (store_book b st).1 = st.current_id + 1 ∧
      (store_book b st).2.current_id = st.current_id + 1 ∧
      (store_book b st).2.books_csv = st.books_csv ++ storeRecord (st.current_id + 1) b ∧
      (∀ b2 : Book, (store_book b2 (store_book b st).2).1 = (store_book b st).1 + 1) :=
  fun _b _st => ⟨rfl, rfl, rfl, fun _b2 => rfl⟩

/-- C10: a string of length exactly 4 whose last character is alphabetic
never passes the year check: stripping the trailing letter leaves three
characters, whose value cannot reach 1000. -/
theorem year_check_len4_trailing_letter_false (s : String)
    (h4 : s.length = 4) (hL : isLetterC (s.data.getLastD ' ') = true) :
    has_valid_year_at_end s = false := by
  have h4' : s.data.length = 4 := h4
  rw [year_equiv_all]
  simp only [year_suffix_spec]
  rw [if_pos hL]
  have hx : s.data.dropLast.length = 3 := by
    rw [List.length_dropLast]; omega
  simp [hx]

/-- C10 (witness): the theorem applied at the concrete input `"983b"`. -/
theorem year_check_len4_trailing_letter_false_witness :
    ("983b".length = 4) ∧ isLetterC ("983b".data.getLastD ' ') = true ∧
    has_valid_year_at_end "983b" = false :=
  ⟨by decide, by decide,
   year_check_len4_trailing_letter_false "983b" (by decide) (by decide)⟩
